import Mathlib

/-
  Verification of the line-classification and intersection-resolution stage of
  guoli-lyu/document-scanner (doc_scanner/scanner.py).

  The embedding models the pandas `DataFrame` holding the detected lines as a
  list of rows (`hits`, `angle`, `intercept`) together with an optional
  `direction` column: `_divide_line_orientation` sets the column cell by cell
  with `_set_value`, so the column exists exactly when at least one row was
  classified, and an empty frame never acquires the column.  Looking the column
  up on a frame that lacks it raises `KeyError`, embedded as
  `Except.error DFError.keyError`.

  `doc_scanner.math_utils` (`find_point_polar`, `points2line`, `intersection`)
  is not part of the sources; those three functions are modelled from the
  specification (section 4.1) and are marked as such below.
-/

namespace DocScanner

/-- A detected polar line: one row of the peak table built in `select_edge`
from `hough_line_peaks` output, with columns `hits`, `angle`, `intercept`. -/
structure PolarLine where
  hits : ℝ
  angle : ℝ
  intercept : ℝ

/-- The values `_divide_line_orientation` writes into the `direction` column. -/
inductive Direction where
  | vertical
  | horizontal
  | irrelevant
deriving DecidableEq

/-- The lines table: its rows, and the `direction` column when present.
The column is absent (`none`) until `_divide_line_orientation` has written at
least one cell; on an empty frame the classifier writes nothing, so the column
stays absent. -/
structure LinesFrame where
  rows : List PolarLine
  direction : Option (List Direction)

/-- A candidate corner point. -/
structure Point where
  x : ℝ
  y : ℝ

/-- Coefficients `(a, b, c)` of a line `a*x + b*y = c`. -/
structure LineEquation where
  a : ℝ
  b : ℝ
  c : ℝ

/-- A pandas lookup failure: `lines['direction']` on a frame without the
`direction` column raises `KeyError`; the `except ValueError` handler in
`_find_intersections` does not catch it, so it propagates. -/
inductive DFError where
  | keyError
deriving DecidableEq

/-- Modelled from the spec: `find_point_polar` of `doc_scanner.math_utils`
(absent from the sources).  Section 4.1 `toCartesianSegment`: for each sample
x-coordinate, the y-coordinate on the polar (Hesse normal form) line satisfies
`x*cos(angle) + y*sin(angle) = distance`, so `y = (d - x*cos a) / sin a`. -/
noncomputable def find_point_polar (l : PolarLine) (x : ℝ × ℝ) : ℝ × ℝ :=
  ((l.intercept - x.1 * Real.cos l.angle) / Real.sin l.angle,
   (l.intercept - x.2 * Real.cos l.angle) / Real.sin l.angle)

/-- Modelled from the spec: `points2line` of `doc_scanner.math_utils` (absent
from the sources).  Section 4.1 `toLineEquation`: coefficients of the line
through the segment's two endpoints. -/
noncomputable def points2line (p q : Point) : LineEquation :=
  { a := q.y - p.y
    b := p.x - q.x
    c := (q.y - p.y) * p.x + (p.x - q.x) * p.y }

/-- The numerical epsilon under which a determinant counts as zero
(section 4.1: "within numerical epsilon of zero"). -/
noncomputable def numerical_eps : ℝ := 1 / 1000000000

/-- The determinant of the 2x2 system formed by two line equations. -/
noncomputable def det2 (l1 l2 : LineEquation) : ℝ := l1.a * l2.b - l2.a * l1.b

/-- Modelled from the spec: `intersection` of `doc_scanner.math_utils` (absent
from the sources).  Section 4.1 `intersect`: Cramer's rule on the 2x2 system;
no point (ParallelLines) when the determinant is within numerical epsilon of
zero, which the caller treats as "this pair contributes nothing". -/
noncomputable def intersection (l1 l2 : LineEquation) : Option Point :=
  if |det2 l1 l2| ≤ numerical_eps then none
  else some { x := (l1.c * l2.b - l2.c * l1.b) / det2 l1 l2
              y := (l1.a * l2.c - l2.a * l1.c) / det2 l1 l2 }

/-- The classification rule applied to one row by `_divide_line_orientation`:
`abs(angle) < err` gives `vertical`, otherwise `abs(angle - pi/2) < err` gives
`horizontal`, otherwise `irrelevant`. -/
noncomputable def line_direction (angle err : ℝ) : Direction :=
  if |angle| < err then Direction.vertical
  else if |angle - Real.pi / 2| < err then Direction.horizontal
  else Direction.irrelevant

/-- Embeds `_divide_line_orientation(lines, err=np.pi*1/12, inplace=True)`.
The result is the pair (returned frame, caller's frame after the call): with
`inplace = true` (the source's default) the function writes the `direction`
column into the caller's frame and returns that same frame, so both components
are the classified frame; with `inplace = false` it works on a copy, so the
caller's frame is returned unchanged.  On an empty frame the row loop never
runs, so no `direction` column is created. -/
noncomputable def divide_line_orientation (lines : LinesFrame)
    (err : ℝ := Real.pi * 1 / 12) (inplace : Bool := true) :
    LinesFrame × LinesFrame :=
  let classified : LinesFrame :=
    { rows := lines.rows
      direction :=
        if lines.rows.isEmpty then lines.direction
        else some (lines.rows.map fun l => line_direction l.angle err) }
  if inplace then (classified, classified) else (classified, lines)

/-- The x sampling interval chosen by `_pairwise_intersection`:
`(0, contour_image.shape[1])` when a contour image is supplied, `(0, 1000)`
otherwise. -/
noncomputable def sampling_x_range (contour_image : Option ℕ) : ℝ × ℝ :=
  match contour_image with
  | some w => (0, (w : ℝ))
  | none => (0, 1000)

/-- The line equation `_pairwise_intersection` builds for one polar line: the
line through the two points sampled at the ends of the x interval. -/
noncomputable def polar_line_equation (l : PolarLine) (contour_image : Option ℕ) :
    LineEquation :=
  let x := sampling_x_range contour_image
  let y := find_point_polar l x
  points2line { x := x.1, y := y.1 } { x := x.2, y := y.2 }

/-- Embeds `_pairwise_intersection(horizontal_polar, vertical_polar,
contour_image=None, along_length=50)`: sample both lines over the x interval,
turn the two two-point tables into line equations, and intersect them.
`along_length` is accepted and unused, as in the source. -/
noncomputable def pairwise_intersection (horizontal_polar vertical_polar : PolarLine)
    (contour_image : Option ℕ) (_along_length : ℝ := 50) : Option Point :=
  intersection (polar_line_equation horizontal_polar contour_image)
    (polar_line_equation vertical_polar contour_image)

/-- The rows of the frame whose `direction` cell holds `d`, in row order:
`lines[lines['direction'] == d]`. -/
def bucket (d : Direction) (rows : List PolarLine) (ds : List Direction) :
    List PolarLine :=
  ((rows.zip ds).filter fun rd => rd.2 == d).map Prod.fst

/-- Embeds `_find_intersections(lines, contour_image=None)`.  The opening
`lines['direction']` lookup raises `KeyError` on a frame without the column;
the `except ValueError` clause does not catch `KeyError`, so the error
propagates (the `_divide_line_orientation` fallback in the handler is
unreachable).  Otherwise the vertical and horizontal buckets are selected,
`itertools.product` iterates vertical lines in the outer loop and horizontal
lines in the inner loop, and each pair's intersection (when it produced a
point) is appended to the accumulated table. -/
noncomputable def find_intersections (lines : LinesFrame)
    (contour_image : Option ℕ) : Except DFError (List Point) :=
  match lines.direction with
  | none => Except.error DFError.keyError
  | some ds =>
      let vertical_lines := bucket Direction.vertical lines.rows ds
      let horizontal_lines := bucket Direction.horizontal lines.rows ds
      let combinations := vertical_lines.flatMap fun v =>
        horizontal_lines.map fun h => (v, h)
      Except.ok (combinations.foldl
        (fun acc vh => acc ++ (pairwise_intersection vh.2 vh.1 contour_image).toList)
        [])

/-- The column labels of the frame, in pandas order: the three construction
columns, then `direction` when that column exists.  `list(df)` in Python
yields exactly these labels. -/
def frame_columns (f : LinesFrame) : List String :=
  ["hits", "angle", "intercept"] ++
    (match f.direction with
     | some _ => ["direction"]
     | none => [])

/-- Embeds `select_edge` (the plotting branch, active only when an axis is
supplied, is omitted: it does not affect the returned value).  The peak table
is built from the external peak finder's output, classified in place with the
default arguments, intersections are computed against the contour image
(always present here, of width `width`), and the function returns
`list(lines)` - the column labels of the lines frame. -/
noncomputable def select_edge (peaks : List PolarLine) (width : ℕ) :
    Except DFError (List String) :=
  let lines : LinesFrame := { rows := peaks, direction := none }
  let lines := (divide_line_orientation lines).2
  match find_intersections lines (some width) with
  | Except.error e => Except.error e
  | Except.ok _ => Except.ok (frame_columns lines)

/-- A sample line classified as vertical: angle `0`, distance `30`. -/
def sample_vertical : PolarLine := { hits := 1, angle := 0, intercept := 30 }

/-- A sample line classified as horizontal: angle `pi/2`, distance `50`. -/
noncomputable def sample_horizontal : PolarLine :=
  { hits := 1, angle := Real.pi / 2, intercept := 50 }

/-- A one-row frame before classification, as `select_edge` builds it. -/
def sample_frame : LinesFrame := { rows := [sample_vertical], direction := none }

/-- Folding "append the optional point" over a list accumulates exactly the
`filterMap`: the model of appending each pair's table row to the growing
`intersections` table. -/
theorem foldl_append_toList {α β : Type} (f : α → Option β) :
    ∀ (l : List α) (acc : List β),
      l.foldl (fun acc a => acc ++ (f a).toList) acc = acc ++ l.filterMap f := by
  intro l
  induction l with
  | nil => intro acc; simp
  | cons a l ih =>
      intro acc
      cases h : f a <;>
        simp [List.foldl_cons, ih, h, List.filterMap_cons]

/-- Filtering the product pairing (outer list first) through a pairwise
function equals the nested flatMap and filterMap. -/
theorem filterMap_pair_product {α β γ : Type} (g : α → β → Option γ) :
    ∀ (vs : List α) (hs : List β),
      ((vs.flatMap fun v => hs.map fun h => (v, h)).filterMap fun vh => g vh.1 vh.2)
        = vs.flatMap fun v => hs.filterMap fun h => g v h := by
  intro vs hs
  induction vs with
  | nil => rfl
  | cons v vs ih =>
      simp only [List.flatMap_cons, List.filterMap_append, ih,
        List.filterMap_map]
      rfl

/-- On a frame that carries the `direction` column, `_find_intersections`
succeeds and returns, in iteration order, the intersections of the product of
the vertical bucket (outer) with the horizontal bucket (inner). -/
theorem find_intersections_some (rows : List PolarLine) (ds : List Direction)
    (img : Option ℕ) :
    find_intersections { rows := rows, direction := some ds } img =
      Except.ok ((bucket Direction.vertical rows ds).flatMap fun v =>
        (bucket Direction.horizontal rows ds).filterMap fun h =>
          pairwise_intersection h v img) := by
  show Except.ok _ = _
  rw [foldl_append_toList (fun vh : PolarLine × PolarLine =>
    pairwise_intersection vh.2 vh.1 img)]
  rw [List.nil_append]
  rw [filterMap_pair_product (fun v h => pairwise_intersection h v img)]

/-- C2: for every polar line angle and tolerance, classification assigns
vertical when the absolute angle is below the tolerance, otherwise horizontal
when the angle is within the tolerance of pi/2, otherwise irrelevant; and at
tolerance pi/12 the angle 0 is vertical, pi/2 is horizontal, and pi/4 is
irrelevant. -/
theorem classification_rule_and_boundary :
    (∀ angle err : ℝ, line_direction angle err =
        (if |angle| < err then Direction.vertical
         else if |angle - Real.pi / 2| < err then Direction.horizontal
         else Direction.irrelevant)) ∧
    line_direction 0 (Real.pi / 12) = Direction.vertical ∧
    line_direction (Real.pi / 2) (Real.pi / 12) = Direction.horizontal ∧
    line_direction (Real.pi / 4) (Real.pi / 12) = Direction.irrelevant := by
  have hpi := Real.pi_pos
  refine ⟨fun angle err => rfl, ?_, ?_, ?_⟩
  · rw [line_direction, abs_zero, if_pos (by linarith)]
  · rw [line_direction, abs_of_nonneg (by linarith : (0:ℝ) ≤ Real.pi / 2),
      if_neg (by intro hcon; linarith), sub_self, abs_zero,
      if_pos (by linarith)]
  · rw [line_direction, abs_of_nonneg (by linarith : (0:ℝ) ≤ Real.pi / 4),
      if_neg (by intro hcon; linarith),
      (by ring : Real.pi / 4 - Real.pi / 2 = -(Real.pi / 4)), abs_neg,
      abs_of_nonneg (by linarith : (0:ℝ) ≤ Real.pi / 4),
      if_neg (by intro hcon; linarith)]

/-- C3 (code evaluated at the failing input): on an empty line sequence the
pipeline does not return an empty result - `_divide_line_orientation` adds no
`direction` column to an empty frame, and the `lines['direction']` lookup in
`_find_intersections` then raises `KeyError`, which the `except ValueError`
clause does not catch, so `select_edge` propagates the error. -/
theorem select_edge_empty_input_errors :
    select_edge [] 100 = Except.error DFError.keyError := rfl

/-- C1 (code evaluated at the failing input): on a well-formed two-line input
whose intersection the resolver computes, `select_edge` returns `list(lines)` -
the column labels of the classified lines table - and discards the
corner-candidate points. -/
theorem select_edge_returns_column_labels :
    select_edge [sample_vertical, sample_horizontal] 100 =
      Except.ok ["hits", "angle", "intercept", "direction"] := rfl

/-- C5 counterexample: invoking classification with the source's default
arguments (`inplace = True`) modifies the caller's frame - after the call the
input frame carries the `direction` column it did not have before. -/
theorem classify_default_mutates :
    (divide_line_orientation sample_frame).2 ≠ sample_frame := by
  intro hcon
  have hd := congrArg LinesFrame.direction hcon
  simp [divide_line_orientation, sample_frame] at hd

/-- C5 amended: classification mutates its input by default (`inplace`
defaults to `True`, and then the returned frame is the caller's own frame);
only the explicit `inplace = False` invocation leaves the input unmodified and
returns a new classified copy, which holds the same classification as the
default invocation produces. -/
theorem classify_inplace_semantics (lines : LinesFrame) (err : ℝ) :
    (divide_line_orientation lines err false).2 = lines ∧
    (divide_line_orientation lines err true).2 =
      (divide_line_orientation lines err true).1 ∧
    (divide_line_orientation lines err).2 = (divide_line_orientation lines err true).2 ∧
    (divide_line_orientation lines err false).1 =
      (divide_line_orientation lines err true).1 :=
  ⟨rfl, rfl, rfl, rfl⟩

/-- C8: the Cartesian sampling interval is `(0, 1000)` when no contour image
is supplied and `(0, width)` when one is, and the line equation each pair uses
is built from the points sampled at the ends of exactly that interval. -/
theorem sampling_range_default (w : ℕ) (l : PolarLine) :
    sampling_x_range none = (0, 1000) ∧
    sampling_x_range (some w) = (0, (w : ℝ)) ∧
    polar_line_equation l none =
      points2line { x := 0, y := (find_point_polar l (0, 1000)).1 }
        { x := 1000, y := (find_point_polar l (0, 1000)).2 } ∧
    polar_line_equation l (some w) =
      points2line { x := 0, y := (find_point_polar l (0, (w : ℝ))).1 }
        { x := (w : ℝ), y := (find_point_polar l (0, (w : ℝ))).2 } :=
  ⟨rfl, rfl, rfl, rfl⟩

/-- C4: a pair whose two sampled line equations are parallel or numerically
degenerate (determinant within numerical epsilon of zero) yields no point, and
the batch never aborts: on a classified frame the resolver always succeeds,
returning exactly the points of the non-degenerate pairs, so a skipped pair
contributes nothing while every other pair is still processed. -/
theorem parallel_pairs_skipped (rows : List PolarLine) (ds : List Direction)
    (img : Option ℕ) :
    (∀ h v : PolarLine,
        |det2 (polar_line_equation h img) (polar_line_equation v img)| ≤
            numerical_eps →
          pairwise_intersection h v img = none) ∧
    find_intersections { rows := rows, direction := some ds } img =
      Except.ok ((bucket Direction.vertical rows ds).flatMap fun v =>
        (bucket Direction.horizontal rows ds).filterMap fun h =>
          pairwise_intersection h v img) := by
  refine ⟨fun h v hdet => ?_, find_intersections_some rows ds img⟩
  rw [pairwise_intersection, intersection, if_pos hdet]

/-- C6: on a classified frame the resolver succeeds; every returned point
arises from one line of the vertical bucket and one of the horizontal bucket
(so a line classified irrelevant, being in neither bucket, participates in no
intersection), and an empty horizontal or vertical bucket gives the empty
result, not an error. -/
theorem buckets_partition_and_empty (rows : List PolarLine) (ds : List Direction)
    (img : Option ℕ) :
    ∃ pts : List Point,
      find_intersections { rows := rows, direction := some ds } img =
          Except.ok pts ∧
      (∀ p ∈ pts, ∃ v ∈ bucket Direction.vertical rows ds,
          ∃ h ∈ bucket Direction.horizontal rows ds,
            pairwise_intersection h v img = some p) ∧
      ((bucket Direction.horizontal rows ds = [] ∨
          bucket Direction.vertical rows ds = []) → pts = []) := by
  refine ⟨_, find_intersections_some rows ds img, ?_, ?_⟩
  · intro p hp
    rw [List.mem_flatMap] at hp
    obtain ⟨v, hv, hpf⟩ := hp
    rw [List.mem_filterMap] at hpf
    obtain ⟨h, hh, hph⟩ := hpf
    exact ⟨v, hv, h, hh, hph⟩
  · rintro (hH | hV)
    · simp [hH]
    · simp [hV]

/-- C7: on a classified frame the resolver succeeds and returns at most
(number of horizontal lines) * (number of vertical lines) points: each pair of
the product contributes at most one point. -/
theorem intersections_count_bound (rows : List PolarLine) (ds : List Direction)
    (img : Option ℕ) :
    ∃ pts : List Point,
      find_intersections { rows := rows, direction := some ds } img =
          Except.ok pts ∧
      pts.length ≤ (bucket Direction.horizontal rows ds).length *
        (bucket Direction.vertical rows ds).length := by
  refine ⟨_, find_intersections_some rows ds img, ?_⟩
  rw [List.length_flatMap]
  have hb : ∀ x ∈ (bucket Direction.vertical rows ds).map
      (fun v => ((bucket Direction.horizontal rows ds).filterMap fun h =>
        pairwise_intersection h v img).length),
      x ≤ (bucket Direction.horizontal rows ds).length := by
    intro x hx
    rw [List.mem_map] at hx
    obtain ⟨v, hv, rfl⟩ := hx
    exact List.length_filterMap_le _ _
  calc ((bucket Direction.vertical rows ds).map
        (fun v => ((bucket Direction.horizontal rows ds).filterMap fun h =>
          pairwise_intersection h v img).length)).sum
      ≤ ((bucket Direction.vertical rows ds).map
          (fun v => ((bucket Direction.horizontal rows ds).filterMap fun h =>
            pairwise_intersection h v img).length)).length •
          (bucket Direction.horizontal rows ds).length :=
        List.sum_le_card_nsmul _ _ hb
    _ = (bucket Direction.horizontal rows ds).length *
          (bucket Direction.vertical rows ds).length := by
        rw [List.length_map, smul_eq_mul, Nat.mul_comm]

/-- C10: on a classified frame the output order is fixed by the input order:
the result is exactly the fold of the product of the vertical bucket (outer
loop) with the horizontal bucket (inner loop), both in row order, keeping one
point per successful pair. -/
theorem intersections_iteration_order (rows : List PolarLine)
    (ds : List Direction) (img : Option ℕ) :
    find_intersections { rows := rows, direction := some ds } img =
      Except.ok ((bucket Direction.vertical rows ds).flatMap fun v =>
        (bucket Direction.horizontal rows ds).filterMap fun h =>
          pairwise_intersection h v img) :=
  find_intersections_some rows ds img

/-- Zipping a list with its own image under a function pairs each element with
its image. -/
theorem zip_self_map {α β : Type} (f : α → β) (l : List α) :
    l.zip (l.map f) = l.map fun a => (a, f a) := by
  induction l with
  | nil => rfl
  | cons a l ih => simp [ih]

/-- Permuting the rows permutes each bucket of the classified rows. -/
theorem bucket_classified_perm (d : Direction) (f : PolarLine → Direction)
    {rows1 rows2 : List PolarLine} (hp : rows1.Perm rows2) :
    (bucket d rows1 (rows1.map f)).Perm (bucket d rows2 (rows2.map f)) := by
  rw [bucket, bucket, zip_self_map, zip_self_map]
  exact ((hp.map fun a => (a, f a)).filter fun rd => rd.2 == d).map Prod.fst

/-- C9: permuting the input rows permutes the vertical and horizontal buckets
of the classified rows; classifying and resolving the permuted rows either
fails exactly as the original does (the empty frame) or returns a permutation
of the original corner-candidate points - as sets, buckets and results are
unchanged. -/
theorem reorder_stability (rows1 rows2 : List PolarLine) (err : ℝ)
    (img : Option ℕ) (hp : rows1.Perm rows2) :
    (bucket Direction.vertical rows1
        (rows1.map fun l => line_direction l.angle err)).Perm
      (bucket Direction.vertical rows2
        (rows2.map fun l => line_direction l.angle err)) ∧
    (bucket Direction.horizontal rows1
        (rows1.map fun l => line_direction l.angle err)).Perm
      (bucket Direction.horizontal rows2
        (rows2.map fun l => line_direction l.angle err)) ∧
    ((find_intersections
          (divide_line_orientation { rows := rows1, direction := none } err).1
          img = Except.error DFError.keyError ∧
        find_intersections
          (divide_line_orientation { rows := rows2, direction := none } err).1
          img = Except.error DFError.keyError) ∨
      ∃ pts1 pts2 : List Point,
        find_intersections
            (divide_line_orientation { rows := rows1, direction := none } err).1
            img = Except.ok pts1 ∧
        find_intersections
            (divide_line_orientation { rows := rows2, direction := none } err).1
            img = Except.ok pts2 ∧
        pts1.Perm pts2) := by
  have hV := bucket_classified_perm Direction.vertical
    (fun l => line_direction l.angle err) hp
  have hH := bucket_classified_perm Direction.horizontal
    (fun l => line_direction l.angle err) hp
  refine ⟨hV, hH, ?_⟩
  cases rows1 with
  | nil =>
      left
      have h2 : rows2 = [] := hp.nil_eq.symm
      subst h2
      exact ⟨rfl, rfl⟩
  | cons r rs =>
      cases rows2 with
      | nil => exact absurd hp List.not_perm_cons_nil
      | cons q qs =>
          right
          have e1 : (divide_line_orientation
              { rows := r :: rs, direction := none } err).1 =
            { rows := r :: rs,
              direction :=
                some ((r :: rs).map fun l => line_direction l.angle err) } := rfl
          have e2 : (divide_line_orientation
              { rows := q :: qs, direction := none } err).1 =
            { rows := q :: qs,
              direction :=
                some ((q :: qs).map fun l => line_direction l.angle err) } := rfl
          rw [e1, e2]
          refine ⟨_, _, find_intersections_some (r :: rs)
            ((r :: rs).map fun l => line_direction l.angle err) img,
            find_intersections_some (q :: qs)
              ((q :: qs).map fun l => line_direction l.angle err) img, ?_⟩
          exact (List.Perm.flatMap_left _ fun v _ =>
              hH.filterMap fun h => pairwise_intersection h v img).trans
            (hV.flatMap_right fun v =>
              (bucket Direction.horizontal (q :: qs)
                ((q :: qs).map fun l => line_direction l.angle err)).filterMap
                fun h => pairwise_intersection h v img)

/-- C9 witness: the stability theorem applied to the concrete two-line input
and its transposition, with tolerance 1 and no image context. -/
theorem reorder_stability_witness :
    ([sample_vertical, sample_horizontal].Perm
        [sample_horizontal, sample_vertical]) ∧
    ((bucket Direction.vertical [sample_vertical, sample_horizontal]
        ([sample_vertical, sample_horizontal].map fun l =>
          line_direction l.angle 1)).Perm
      (bucket Direction.vertical [sample_horizontal, sample_vertical]
        ([sample_horizontal, sample_vertical].map fun l =>
          line_direction l.angle 1)) ∧
    (bucket Direction.horizontal [sample_vertical, sample_horizontal]
        ([sample_vertical, sample_horizontal].map fun l =>
          line_direction l.angle 1)).Perm
      (bucket Direction.horizontal [sample_horizontal, sample_vertical]
        ([sample_horizontal, sample_vertical].map fun l =>
          line_direction l.angle 1)) ∧
    ((find_intersections
          (divide_line_orientation
            { rows := [sample_vertical, sample_horizontal], direction := none }
            1).1 none = Except.error DFError.keyError ∧
        find_intersections
          (divide_line_orientation
            { rows := [sample_horizontal, sample_vertical], direction := none }
            1).1 none = Except.error DFError.keyError) ∨
      ∃ pts1 pts2 : List Point,
        find_intersections
            (divide_line_orientation
              { rows := [sample_vertical, sample_horizontal], direction := none }
              1).1 none = Except.ok pts1 ∧
        find_intersections
            (divide_line_orientation
              { rows := [sample_horizontal, sample_vertical], direction := none }
              1).1 none = Except.ok pts2 ∧
        pts1.Perm pts2)) :=
  ⟨List.Perm.swap sample_horizontal sample_vertical [],
   reorder_stability [sample_vertical, sample_horizontal]
     [sample_horizontal, sample_vertical] 1 none
     (List.Perm.swap sample_horizontal sample_vertical [])⟩

end DocScanner
